import Mathlib

/-!
Verification of the SENTINEL-Λ decision core.

The development shallowly embeds the decision pipeline of the repository:

* `src/core/safety_engine.py` — `TextNormalizer.normalize` and `SafetyEngine`
  (risk pattern matching, policy checks, decision resolution, confidence);
* `src/core/context_analyzer.py` — `ContextAnalyzer.analyze`;
* `src/core/supervisor.py` — `SafetySupervisor._make_decision` and its
  `Decision`/`RiskLevel` data model;
* `sentinel_core/guardian.py` (+ `sentinel_core/scorers/*`) — `GuardianEngine.evaluate`
  with its redaction of the user-facing response on BLOCK.

Modelling conventions:
* Python strings are `List Char` (`Text`); `str.lower` is modelled on the ASCII
  range (`pyLower`), which covers every character class the engine's rules use.
* Python floats are modelled as `ℚ`; every constant in the engine is a short
  decimal, and no decision threshold sits on a floating-point rounding boundary.
  `round(x, n)` is modelled by `roundQ` (rounding of `x·10^n`; Python's
  round-half-to-even and `roundQ` agree away from exact ties, and no property
  proved here depends on tie behaviour).
* Every regular expression in these modules denotes a finite alternation of
  literal strings, optionally anchored by `\b` word boundaries on both sides
  (each such alternative starts and ends with a `\w` character).  A pattern is
  embedded as `Pat`: its regex source text, its list of literal alternatives,
  and whether it is word-bounded; `reSearch` implements `re.search` for this
  fragment.
* Python `set` objects holding risk categories are modelled as duplicate-free
  lists in insertion order; only membership, removal and emptiness are ever
  consumed by the decision logic.
-/

namespace Sentinel

/-- Python strings, modelled as lists of characters. -/
abbrev Text := List Char

/-- Python's `\s` / `str.strip` whitespace, ASCII range:
space, tab, newline, carriage return, vertical tab, form feed. -/
def isPyWs (c : Char) : Bool :=
  c.toNat = 32 || c.toNat = 9 || c.toNat = 10 || c.toNat = 13 ||
  c.toNat = 11 || c.toNat = 12

/-- Python `str.lower`, ASCII range (the engine's own rule alphabet is ASCII). -/
def pyLower (c : Char) : Char :=
  if 65 ≤ c.toNat && c.toNat ≤ 90 then Char.ofNat (c.toNat + 32) else c

/-- The character class kept by `re.sub(r'[^a-z0-9\s%]', '', text)` in
`TextNormalizer.normalize`. -/
def keepChar (c : Char) : Bool :=
  (97 ≤ c.toNat && c.toNat ≤ 122) || (48 ≤ c.toNat && c.toNat ≤ 57) ||
  isPyWs c || c.toNat = 37

/-- Python `text.replace(a, b)` for single characters. -/
def replaceChar (a b : Char) (t : Text) : Text :=
  t.map fun c => if c = a then b else c

/-- Embeds `re.sub(r'\s+', ' ', text)`: every maximal whitespace run becomes one
space.  The flag records whether the previous character was whitespace. -/
def collapseWsAux : Bool → Text → Text
  | _, [] => []
  | prevWs, c :: t =>
    if isPyWs c then
      if prevWs then collapseWsAux true t
      else ' ' :: collapseWsAux true t
    else c :: collapseWsAux false t

/-- Removal of trailing whitespace (the right half of Python `str.strip`). -/
def rstripWs : Text → Text
  | [] => []
  | c :: t =>
    match rstripWs t with
    | [] => if isPyWs c then [] else [c]
    | r => c :: r

/-- Python `str.strip()`. -/
def pyStrip (t : Text) : Text := rstripWs (t.dropWhile isPyWs)

/-- The digit characters 0-9. -/
def isDigit09 (c : Char) : Bool := 48 ≤ c.toNat && c.toNat ≤ 57

/-- A digit other than '3' (the one digit the leet map still rewrites). -/
def keepsDigit (c : Char) : Bool := isDigit09 c && !(c == '3')

/-- No two adjacent whitespace characters (an invariant of collapsed
text). -/
def noDS : Text → Bool
  | [] => true
  | [_] => true
  | c :: d :: t => !(isPyWs c && isPyWs d) && noDS (d :: t)

/-- The first character, if any, is not whitespace. -/
def headNotWs : Text → Bool
  | [] => true
  | c :: _ => !isPyWs c

/-- The last character, if any, is not whitespace. -/
def noTrailWs : Text → Bool
  | [] => true
  | [c] => !isPyWs c
  | _ :: c :: t => noTrailWs (c :: t)

namespace TextNormalizer

/-- Embeds `TextNormalizer.normalize` (src/core/safety_engine.py:21-34): lowercase,
apply the leet map `{'!':'i', '@':'a', '$':'s', '3':'e'}` by sequential
`str.replace`, drop characters outside `[a-z0-9\s%]`, collapse whitespace
runs to single spaces and strip the ends. -/
def normalize (t : Text) : Text :=
  let lowered := t.map pyLower
  let leeted :=
    replaceChar '3' 'e' (replaceChar '$' 's'
      (replaceChar '@' 'a' (replaceChar '!' 'i' lowered)))
  let kept := leeted.filter keepChar
  pyStrip (collapseWsAux false kept)

end TextNormalizer

/-- A regex of the engines' fragment: a finite alternation of literal
strings, optionally `\b`-anchored on both ends.  `src` is the regex source
text (used by `ContextAnalyzer` to tag modifiers and by its time-frame
check); each bounded alternative starts and ends with a `\w` character. -/
structure Pat where
  src : String
  alts : List Text
  bounded : Bool
deriving DecidableEq, Repr

def mkPat (src : String) (alts : List String) (bounded : Bool) : Pat :=
  ⟨src, alts.map String.toList, bounded⟩

/-- Python `\w` (ASCII range). -/
def isWordChar (c : Char) : Bool :=
  (97 ≤ c.toNat && c.toNat ≤ 122) || (65 ≤ c.toNat && c.toNat ≤ 90) ||
  (48 ≤ c.toNat && c.toNat ≤ 57) || c.toNat = 95

/-- Match a literal at the head of `t`, returning the remainder on success. -/
def litMatch : Text → Text → Option Text
  | [], t => some t
  | _ :: _, [] => none
  | c :: p, d :: t => if c = d then litMatch p t else none

/-- The next character (if any) is not a word character. -/
def headNonWord : Text → Bool
  | [] => true
  | c :: _ => !isWordChar c

/-- Some alternative matches at the current position.  For a bounded pattern
the position must be preceded by a boundary (`prevOk`) and followed by one;
this is `\b` semantics for alternatives that start and end with `\w`. -/
def altHitAt (bounded prevOk : Bool) (alt : Text) (t : Text) : Bool :=
  match litMatch alt t with
  | some rest => !bounded || (prevOk && headNonWord rest)
  | none => false

def searchAux (p : Pat) : Bool → Text → Bool
  | prevOk, [] => p.alts.any fun a => altHitAt p.bounded prevOk a []
  | prevOk, c :: t =>
    (p.alts.any fun a => altHitAt p.bounded prevOk a (c :: t)) ||
    searchAux p (!isWordChar c) t

/-- Embeds `re.search(pattern, text) is not None` for the engines' regex fragment. -/
def reSearch (p : Pat) (t : Text) : Bool := searchAux p true t

/-- Python substring containment `needle in hay`. -/
def containsSub (needle : Text) : Text → Bool
  | [] => (litMatch needle []).isSome
  | c :: t => (litMatch needle (c :: t)).isSome || containsSub needle t

namespace ContextAnalyzer

/-- Embeds `ContextResult` (src/core/context_analyzer.py:10-16). -/
structure ContextResult where
  is_medical_context : Bool
  is_emergency : Bool
  confidence : ℚ
  modifiers : List String
  time_frame : String
deriving DecidableEq, Repr

/-- Embeds `ContextAnalyzer.hard_negations` (context_analyzer.py:21-27). -/
def hard_negations : List Pat := [
  mkPat "\\bno (chest )?pain\\b" ["no pain", "no chest pain"] true,
  mkPat "\\bdon\x27?t have\\b" ["dont have", "don\x27t have"] true,
  mkPat "\\bnot (experiencing|feeling)\\b" ["not experiencing", "not feeling"] true,
  mkPat "\\bjust curious\\b" ["just curious"] true,
  mkPat "\\bhypothetical\\b" ["hypothetical"] true]

/-- Embeds `ContextAnalyzer.mitigators` (context_analyzer.py:30-37). -/
def mitigators : List (Pat × ℚ) := [
  (mkPat "\\bafter (eating|food|meal|dinner)\\b"
    ["after eating", "after food", "after meal", "after dinner"] true, 5/10),
  (mkPat "\\bafter (workout|exercise|gym)\\b"
    ["after workout", "after exercise", "after gym"] true, 3/10),
  (mkPat "\\bmild\\b" ["mild"] true, 2/10),
  (mkPat "\\bchronic\\b" ["chronic"] true, 4/10),
  (mkPat "\\bused to have\\b" ["used to have"] true, 8/10),
  (mkPat "\\blast (week|month|year)\\b"
    ["last week", "last month", "last year"] true, 6/10)]

/-- Embeds `ContextAnalyzer.aggravators` (context_analyzer.py:40-48). -/
def aggravators : List (Pat × ℚ) := [
  (mkPat "\\b(severe|crushing|stabbing|unbearable)\\b"
    ["severe", "crushing", "stabbing", "unbearable"] true, 5/10),
  (mkPat "\\bradiating\\b" ["radiating"] true, 4/10),
  (mkPat "\\b(jaw|arm|back) pain\\b" ["jaw pain", "arm pain", "back pain"] true, 4/10),
  (mkPat "\\bsweating\\b" ["sweating"] true, 3/10),
  (mkPat "\\bcan\x27?t breathe\\b" ["cant breathe", "can\x27t breathe"] true, 6/10),
  (mkPat "\\bpassed out\\b" ["passed out"] true, 7/10),
  (mkPat "\\bnow\\b" ["now"] true, 2/10)]

/-- Embeds `ContextAnalyzer.med_triggers` (context_analyzer.py:51), matched by plain
substring containment. -/
def med_triggers : List String :=
  ["pain", "chest", "heart", "breath", "doctor", "symptom"]

/-- Embeds `ContextAnalyzer.analyze` (context_analyzer.py:53-95): first matching
hard negation short-circuits; otherwise aggravator weights are added and
mitigator weights subtracted in table order, with the `> 0.3` emergency
threshold and the `max(0, score + 0.1)` residual confidence. -/
def analyze (text0 : Text) : ContextResult :=
  let text := text0.map pyLower
  let is_medical_context := med_triggers.any fun k => containsSub k.toList text
  match hard_negations.find? (fun p => reSearch p text) with
  | some p =>
    { is_medical_context, is_emergency := false, confidence := 0,
      modifiers := ["negation:" ++ p.src], time_frame := "unknown" }
  | none =>
    let hitAgg := aggravators.filter fun pw => reSearch pw.1 text
    let hitMit := mitigators.filter fun pw => reSearch pw.1 text
    let risk_score : ℚ := (hitAgg.map Prod.snd).sum - (hitMit.map Prod.snd).sum
    let modifiers :=
      hitAgg.map (fun pw => "aggravator:" ++ pw.1.src) ++
      hitMit.map (fun pw => "mitigator:" ++ pw.1.src)
    let time_frame :=
      if hitMit.any (fun pw => containsSub "last".toList pw.1.src.toList ||
          containsSub "used to".toList pw.1.src.toList)
      then "historical" else "unknown"
    if risk_score > 3/10 then
      { is_medical_context, is_emergency := true, confidence := min risk_score 1,
        modifiers, time_frame }
    else
      { is_medical_context, is_emergency := false,
        confidence := max 0 (risk_score + 1/10), modifiers, time_frame }

end ContextAnalyzer

namespace SafetyEngine

/-- Embeds `RiskCategory` (safety_engine.py:175-177). -/
inductive RiskCategory
  | MEDICAL_EMERGENCY | FINANCIAL_SCAM | HARMFUL_CONTENT | SELF_HARM
deriving DecidableEq, Repr

/-- Embeds `PolicyViolation` (safety_engine.py:179-180). -/
inductive PolicyViolation
  | MISSING_ESCALATION | UNSAFE_ADVICE
deriving DecidableEq, Repr

/-- Embeds `Decision` (safety_engine.py:172-173).  Note: this enum has no REVIEW
member. -/
inductive Decision
  | APPROVE | ESCALATE | BLOCK
deriving DecidableEq, Repr

open RiskCategory PolicyViolation

/-- Embeds `SafetyEngine.risk_patterns` (safety_engine.py:41-57). -/
def risk_patterns : List (Pat × ℚ × RiskCategory) := [
  (mkPat "\\bchest pain\\b" ["chest pain"] true, 8/10, MEDICAL_EMERGENCY),
  (mkPat "\\bheart attack\\b" ["heart attack"] true, 1, MEDICAL_EMERGENCY),
  (mkPat "\\bdifficulty breathing\\b" ["difficulty breathing"] true, 9/10,
    MEDICAL_EMERGENCY),
  (mkPat "\\bsuicide\\b" ["suicide"] true, 1, SELF_HARM),
  (mkPat "\\bkill myself\\b" ["kill myself"] true, 1, SELF_HARM),
  (mkPat "1000%" ["1000%"] false, 9/10, FINANCIAL_SCAM),
  (mkPat "\\bguaranteed\\b" ["guaranteed"] true, 8/10, FINANCIAL_SCAM),
  (mkPat "\\brisk free\\b" ["risk free"] true, 7/10, FINANCIAL_SCAM),
  (mkPat "\\bmake a b[o0]mb\\b" ["make a bomb", "make a b0mb"] true, 1,
    HARMFUL_CONTENT),
  (mkPat "\\bpoison\\b" ["poison"] true, 9/10, HARMFUL_CONTENT)]

/-- Embeds `SafetyEngine.mitigation_patterns` (safety_engine.py:60-63), unanchored
literals. -/
def mitigation_patterns : List Pat := [
  mkPat "call 911" ["call 911"] false,
  mkPat "emergency room" ["emergency room"] false,
  mkPat "seek professional help" ["seek professional help"] false,
  mkPat "crisis hotline" ["crisis hotline"] false,
  mkPat "consult a doctor" ["consult a doctor"] false]

/-- The keys of `SafetyEngine.domain_profiles` (safety_engine.py:65-69). -/
def domain_keys : List String := ["medical", "financial", "general"]

/-- Embeds `self.domain_profiles[domain].get(category, 1.0)`
(safety_engine.py:65-69 and 118): the per-domain multiplier table, with
default 1 for categories absent from the domain's profile. -/
def domainMultiplier (domain : String) (c : RiskCategory) : ℚ :=
  if domain = "medical" then
    match c with
    | MEDICAL_EMERGENCY => 12/10
    | SELF_HARM => 12/10
    | _ => 1
  else if domain = "financial" then
    match c with
    | FINANCIAL_SCAM => 15/10
    | _ => 1
  else 1

/-- Python `set.add` on the insertion-order duplicate-free list model. -/
def insertRisk (c : RiskCategory) (l : List RiskCategory) : List RiskCategory :=
  if c ∈ l then l else l ++ [c]

/-- Embeds `re.search(pattern, query) or re.search(pattern, response)`
(safety_engine.py:116): the pattern hits the (already normalized) query or
response. -/
def matchedBy (query response : Text) (pwc : Pat × ℚ × RiskCategory) : Bool :=
  reSearch pwc.1 query || reSearch pwc.1 response

/-- Embeds `effective_weight = min(weight * mult, 0.99)` (safety_engine.py:118-119). -/
def effW (domain : String) (pwc : Pat × ℚ × RiskCategory) : ℚ :=
  min (pwc.2.1 * domainMultiplier domain pwc.2.2) (99/100)

/-- One iteration of the `_calculate_risk` loop (safety_engine.py:115-120). -/
def riskStep (query response : Text) (domain : String)
    (acc : List RiskCategory × ℚ) (pwc : Pat × ℚ × RiskCategory) :
    List RiskCategory × ℚ :=
  if matchedBy query response pwc then
    (insertRisk pwc.2.2 acc.1, acc.2 * (1 - effW domain pwc))
  else acc

/-- Embeds `SafetyEngine._calculate_risk` (safety_engine.py:110-122); `query` and
`response` are the already-normalized texts.  The loop accumulates the
detected category set and the running safety probability
`Π (1 - effective_weight)`, and the returned score is its complement. -/
def calculate_risk (query response : Text) (domain : String) :
    List RiskCategory × ℚ :=
  let out := risk_patterns.foldl (riskStep query response domain) ([], 1)
  (out.1, 1 - out.2)

/-- Embeds `SafetyEngine._check_policy` (safety_engine.py:124-134); the source loop
appends `UNSAFE_ADVICE` at most once (it breaks on the first
HARMFUL_CONTENT pattern found in the response). -/
def check_policy (risks : List RiskCategory) (response : Text) :
    List PolicyViolation :=
  let advice :=
    if risk_patterns.any
        (fun pwc => pwc.2.2 == HARMFUL_CONTENT && reSearch pwc.1 response)
    then [UNSAFE_ADVICE] else []
  let has_mitigation := mitigation_patterns.any fun p => reSearch p response
  advice ++
    (if (MEDICAL_EMERGENCY ∈ risks ∨ SELF_HARM ∈ risks) ∧ has_mitigation = false
     then [MISSING_ESCALATION] else [])

/-- Embeds `SafetyEngine._make_decision` (safety_engine.py:136-154): absolute bans,
then general violations, then high-stakes domain escalation, then the
score threshold, then APPROVE. -/
def make_decision (score : ℚ) (risks : List RiskCategory)
    (violations : List PolicyViolation) (domain : String) : Decision :=
  if HARMFUL_CONTENT ∈ risks ∨ UNSAFE_ADVICE ∈ violations then .BLOCK
  else if violations ≠ [] then .BLOCK
  else if (domain = "medical" ∨ domain = "financial") ∧ risks ≠ [] then .ESCALATE
  else if 5/10 ≤ score then .ESCALATE
  else .APPROVE

/-- Embeds `SafetyEngine._calculate_confidence` (safety_engine.py:156-161). -/
def calculate_confidence (score : ℚ) (violations : List PolicyViolation) : ℚ :=
  let dist := |score - 5/10|
  let base1 : ℚ := if dist < 1/10 then 1 - (2/10 - dist * 2) else 1
  let base2 : ℚ := if violations ≠ [] then base1 - 1/10 else base1
  max base2 (5/10)

/-- Python `round(x, n)` on the exact rational model. -/
def roundQ (n : ℕ) (q : ℚ) : ℚ := (round (q * 10 ^ n) : ℤ) / 10 ^ n

/-- Embeds `EvaluationResult` (safety_engine.py:182-186), with the enum `.value`
strings kept as the enums themselves. -/
structure EvaluationResult where
  decision : Decision
  risk_score : ℚ
  detected_risks : List RiskCategory
  violations : List PolicyViolation
  confidence : ℚ
  explanation : String
  normalized_query : Text
  normalized_response : Text
deriving DecidableEq, Repr

/-- Embeds `if domain not in self.domain_profiles: domain = "general"`
(safety_engine.py:72-73). -/
def resolveDomain (domain : String) : String :=
  if domain ∈ domain_keys then domain else "general"

/-- The context-override step of `SafetyEngine.evaluate`
(safety_engine.py:81-92), applied to the `_calculate_risk` output.  The
third component records whether the override fired (it drives the
explanation prefix). -/
def contextOverride (nq : Text) (domain : String)
    (risks : List RiskCategory) (score : ℚ) :
    List RiskCategory × ℚ × Bool :=
  if MEDICAL_EMERGENCY ∈ risks ∧ domain ≠ "medical" then
    let cr := ContextAnalyzer.analyze nq
    let modifiers_str := String.join cr.modifiers
    if cr.is_emergency = false ∧ cr.confidence < 3/10 ∧
        containsSub "aggravator".toList modifiers_str.toList = false then
      (risks.filter (fun c => c != MEDICAL_EMERGENCY), max (1/10) cr.confidence,
        true)
    else (risks, score, false)
  else (risks, score, false)

/-- Lines 75-92 of `SafetyEngine.evaluate`: normalization, `_calculate_risk`
and the conditional context override, with `domain` already resolved. -/
def riskState (query response : Text) (domain : String) :
    List RiskCategory × ℚ × Bool :=
  let nq := TextNormalizer.normalize query
  let nr := TextNormalizer.normalize response
  let rs := calculate_risk nq nr domain
  contextOverride nq domain rs.1 rs.2

def categoryName : RiskCategory → String
  | MEDICAL_EMERGENCY => "MEDICAL_EMERGENCY"
  | FINANCIAL_SCAM => "FINANCIAL_SCAM"
  | HARMFUL_CONTENT => "HARMFUL_CONTENT"
  | SELF_HARM => "SELF_HARM"

def violationName : PolicyViolation → String
  | MISSING_ESCALATION => "MISSING_ESCALATION"
  | UNSAFE_ADVICE => "UNSAFE_ADVICE"

/-- Embeds `SafetyEngine._generate_explanation` (safety_engine.py:163-170); the
`score` argument is accepted and unused, as in the source. -/
def generate_explanation (decision : Decision) (risks : List RiskCategory)
    (violations : List PolicyViolation) (score : ℚ) : String :=
  let _ := score
  let risk_str :=
    if risks = [] then "None"
    else String.intercalate ", " (risks.map categoryName)
  match decision with
  | .BLOCK =>
    match violations with
    | v :: _ => "BLOCKED: Policy violation (" ++ violationName v ++ ")."
    | [] => "BLOCKED: Prohibited content (" ++ risk_str ++ ")."
  | .ESCALATE => "FLAGGED: Risk detected in high-stakes domain (" ++ risk_str ++ ")."
  | .APPROVE => "APPROVED: Content safe."

/-- Embeds `SafetyEngine.evaluate` (safety_engine.py:71-108).  The explanation
prefix abstracts Python's `f"CONTEXT OVERRIDE: {modifiers}. "` list
formatting to a joined-modifier rendering; no claim depends on the
explanation text. -/
def evaluate (query response : Text) (domain0 : String) : EvaluationResult :=
  let domain := resolveDomain domain0
  let nq := TextNormalizer.normalize query
  let nr := TextNormalizer.normalize response
  let st := riskState query response domain
  let risks := st.1
  let risk_score := st.2.1
  let violations := check_policy risks nr
  let decision := make_decision risk_score risks violations domain
  let confidence := calculate_confidence risk_score violations
  let explanation_prefix :=
    if st.2.2 then
      "CONTEXT OVERRIDE: " ++
        String.join (ContextAnalyzer.analyze nq).modifiers ++ ". "
    else ""
  { decision, risk_score := roundQ 3 risk_score,
    detected_risks := risks, violations,
    confidence := roundQ 2 confidence,
    explanation :=
      explanation_prefix ++ generate_explanation decision risks violations risk_score,
    normalized_query := nq, normalized_response := nr }

end SafetyEngine

namespace Supervisor

/-- Embeds `Decision` (src/core/supervisor.py:31-36); unlike the safety engine's
enum, this one has a REVIEW member. -/
inductive Decision
  | APPROVE | ESCALATE | BLOCK | REVIEW
deriving DecidableEq, Repr

/-- Embeds `RiskLevel` (supervisor.py:39-44). -/
inductive RiskLevel
  | LOW | MEDIUM | HIGH | CRITICAL
deriving DecidableEq, Repr

/-- Embeds `RiskFactor` (supervisor.py:69-77), without the free-form context map. -/
structure RiskFactor where
  rule_id : String
  description : String
  risk_level : RiskLevel
  confidence : ℚ
  evidence : String
deriving DecidableEq, Repr

/-- Embeds `risk_counts[level]` built by the `defaultdict(int)` loop
(supervisor.py:500-502). -/
def countLevel (l : RiskLevel) (risk_factors : List RiskFactor) : ℕ :=
  (risk_factors.filter fun f => f.risk_level == l).length

/-- Embeds `SafetySupervisor._make_decision` (supervisor.py:490-520): APPROVE on no
risk factors, then CRITICAL → BLOCK, >1 HIGH → BLOCK, HIGH with confidence
< 0.5 → ESCALATE, >2 MEDIUM → ESCALATE, confidence < 0.3 → REVIEW, else
APPROVE. -/
def make_decision (risk_factors : List RiskFactor) (confidence : ℚ) : Decision :=
  if risk_factors = [] then .APPROVE
  else if 0 < countLevel .CRITICAL risk_factors then .BLOCK
  else if 1 < countLevel .HIGH risk_factors then .BLOCK
  else if 0 < countLevel .HIGH risk_factors ∧ confidence < 5/10 then .ESCALATE
  else if 2 < countLevel .MEDIUM risk_factors then .ESCALATE
  else if confidence < 3/10 then .REVIEW
  else .APPROVE

/-- The default rule `EMERGENCY_001` match on "heart attack"
(supervisor.py:208-216, 418-429), at its base confidence. -/
def emergencyFactor : RiskFactor :=
  ⟨"EMERGENCY_001", "Medical emergency detection", .CRITICAL, 9/10, "heart attack"⟩

/-- A LOW-severity factor, as produced by a custom rules file
(supervisor.py:190-197) whose rule carries `risk_level: LOW`. -/
def lowFactor : RiskFactor :=
  ⟨"CUSTOM_001", "Low-severity custom rule", .LOW, 7/10, "minor"⟩

end Supervisor

namespace Guardian

/-- Embeds `Decision` (sentinel_core/decision_enums.py:3-7). -/
inductive Decision
  | APPROVE | ESCALATE | BLOCK
deriving DecidableEq, Repr

/-- Embeds `DecisionReason` (decision_enums.py:9-15). -/
inductive DecisionReason
  | SAFETY_VIOLATION | HIGH_RISK_NO_ESCALATION | LOW_CONFIDENCE | PASSED_ALL_CHECKS
deriving DecidableEq, Repr

/-- One entry of the `thresholds.safety.unsafe_patterns` configuration list
consumed by `GuardianEngine._check_safety_violation` (guardian.py:53-69).
(The source calls these entries `unsafe_patterns`; the name is adjusted
here.) -/
structure DangerPattern where
  pattern : Text
  context : Text
  violation : String
deriving DecidableEq, Repr

/-- The configuration snapshot a `GuardianEngine` holds after `_init_`
(guardian.py:14-40): hedging vocabulary, exemplar safe responses, the
confidence threshold, the ordered rule-name table, emergency escalation
phrases, high-risk indicators, and the `unsafe_patterns` table (field
`danger_patterns` here). -/
structure Config where
  hedging_words : List Text
  safe_responses : List Text
  confidence_threshold : ℚ
  rules : List String
  emergency_phrases : List Text
  high_risk_indicators : List Text
  danger_patterns : List DangerPattern
deriving DecidableEq, Repr

/-- Matching a literal consumes exactly the needle, so the remainder is no
longer than the scanned tail. -/
theorem litMatch_length_le :
    ∀ p t r : Text, litMatch p t = some r → r.length ≤ t.length := by
  intro p
  induction p with
  | nil =>
    intro t r h
    simp only [litMatch, Option.some.injEq] at h
    simp [h]
  | cons c p ih =>
    intro t r h
    cases t with
    | nil => simp [litMatch] at h
    | cons d t =>
      simp only [litMatch] at h
      split at h
      · exact Nat.le_trans (ih t r h) (Nat.le_succ _)
      · exact absurd h (by simp)

/-- Python `str.count(sub)`: number of non-overlapping occurrences, scanning
left to right (used by `ConfidenceScorer.calculate`,
sentinel_core/scorers/confidence.py). -/
def countOcc (needle : Text) : Text → ℕ
  | [] => if (litMatch needle []).isSome then 1 else 0
  | c :: t =>
    match h : litMatch needle (c :: t) with
    | some rest =>
      match needle with
      | [] => 1 + countOcc needle t
      | _ :: _ => 1 + countOcc needle rest
    | none => countOcc needle t
termination_by t => t.length
decreasing_by
  · simp only [List.length_cons]; omega
  · have := litMatch_length_le _ _ _ h
    simp only [litMatch] at h
    split at h
    · have := litMatch_length_le _ _ _ h
      simp only [List.length_cons]; omega
    · exact absurd h (by simp)
  · simp only [List.length_cons]; omega

/-- Python `str.split()` (no separator): split on whitespace runs, dropping
empty fragments; `cur` is the reversed current fragment. -/
def splitWsAux (cur : Text) : Text → List Text
  | [] => if cur = [] then [] else [cur.reverse]
  | c :: t =>
    if isPyWs c then
      if cur = [] then splitWsAux [] t else cur.reverse :: splitWsAux [] t
    else splitWsAux (c :: cur) t

def pySplit (t : Text) : List Text := splitWsAux [] t

/-- Embeds `SemanticScorer.simple_similarity` (sentinel_core/scorers/semantic.py):
token-set Jaccard overlap of the lowercased whitespace tokenizations. -/
def simple_similarity (t1 t2 : Text) : ℚ :=
  if t1 = [] ∨ t2 = [] then 0
  else
    let words1 := (pySplit (t1.map pyLower)).dedup
    let words2 := (pySplit (t2.map pyLower)).dedup
    if words1 = [] ∨ words2 = [] then 0
    else
      let interCount := (words1.filter fun w => decide (w ∈ words2)).length
      let unionCount :=
        (words1 ++ words2.filter fun w => decide (w ∉ words1)).length
      if 0 < unionCount then (interCount : ℚ) / unionCount else 0

/-- Embeds `ConfidenceScorer.calculate` (sentinel_core/scorers/confidence.py):
`max(0, min(1, 0.95 - 0.1 * hedge_count))`, rounded to three places;
empty responses score 0.  `hedging_words` are already lowercased (the
scorer's `_init_` lowercases its vocabulary). -/
def confidence_calculate (hedging_words : List Text) (response : Text) : ℚ :=
  if response = [] then 0
  else
    let response_lower := response.map pyLower
    let hedge_count : ℕ := (hedging_words.map fun w => countOcc w response_lower).sum
    SafetyEngine.roundQ 3 (max 0 (min 1 (95/100 - (hedge_count : ℚ) * (1/10))))

/-- Embeds `SemanticScorer.calculate` (scorers/semantic.py): best similarity over
the exemplar safe responses, with the `>` update rule and the 50-character
truncation of the best match. -/
def semantic_calculate (safe_responses : List Text) (response : Text) : ℚ × Text :=
  match safe_responses with
  | [] => (0, "No safe responses configured".toList)
  | _ :: _ =>
    let best := safe_responses.foldl
      (fun (acc : ℚ × Text) sr =>
        let s := simple_similarity response sr
        if acc.1 < s then
          (s, if 50 < sr.length then sr.take 50 ++ "...".toList else sr)
        else acc)
      (0, [])
    (SafetyEngine.roundQ 3 best.1, best.2)

/-- Embeds `GuardianEngine._has_emergency_escalation` (guardian.py:42-45). -/
def has_emergency_escalation (cfg : Config) (response : Text) : Bool :=
  cfg.emergency_phrases.any fun p => containsSub p (response.map pyLower)

/-- Embeds `GuardianEngine._detect_high_severity` (guardian.py:47-51). -/
def detect_high_severity (cfg : Config) (query : Text) : Bool :=
  cfg.high_risk_indicators.any fun p => containsSub p (query.map pyLower)

/-- Embeds `GuardianEngine._check_safety_violation` (guardian.py:53-69): the first
configured entry whose lowercased pattern and context both occur in the
lowercased response. -/
def check_safety_violation (cfg : Config) (response : Text) : Option DangerPattern :=
  cfg.danger_patterns.find? fun u =>
    containsSub (u.pattern.map pyLower) (response.map pyLower) &&
    containsSub (u.context.map pyLower) (response.map pyLower)

/-- The ordered rule loop of `GuardianEngine.evaluate` (guardian.py:88-111):
the first rule whose name and condition both hold wins; Python's numeric
interpolation inside the LOW_CONFIDENCE counterfactual is abstracted to a
fixed sentence. -/
def applyRules (cfg : Config) (sv : Option DangerPattern) (hs esc : Bool)
    (conf : ℚ) : List String → Decision × DecisionReason × Option String
  | [] => (.APPROVE, .PASSED_ALL_CHECKS, none)
  | name :: rest =>
    if name = "SAFETY_VIOLATION" ∧ sv.isSome then
      (.BLOCK, .SAFETY_VIOLATION,
        some ("Response would be APPROVED if it did not contain unsafe pattern: " ++
          String.mk (match sv with | some u => u.pattern | none => [])))
    else if name = "HIGH_RISK_NO_ESCALATION" ∧ hs = true ∧ esc = false then
      (.BLOCK, .HIGH_RISK_NO_ESCALATION,
        some "Response would be APPROVED if it included emergency referral advice")
    else if name = "LOW_CONFIDENCE" ∧ conf < cfg.confidence_threshold then
      (.ESCALATE, .LOW_CONFIDENCE,
        some "Response would be APPROVED with a confidence score at or above the configured threshold")
    else applyRules cfg sv hs esc conf rest

/-- The audit record assembled by `GuardianEngine.evaluate`
(guardian.py:116-139): `safe_response` is the user-facing response field,
`original_ai_response` the internal audit copy. -/
structure AuditData where
  timestamp : String
  query : Text
  original_ai_response : Text
  safe_response : Option Text
  decision : Decision
  reason : DecisionReason
  confidence : ℚ
  semantic_similarity : ℚ
  closest_safe_match : Text
  is_high_severity : Bool
  has_emergency_escalation : Bool
  safety_violation : Option DangerPattern
  counterfactual : Option String
  confidence_threshold : ℚ
deriving DecidableEq, Repr

/-- Embeds `GuardianEngine.evaluate` (guardian.py:71-144).  The audit-file write
(`_log_to_audit`) is outside the decision path and is not modelled; the
timestamp is an opaque parameter standing for `datetime.utcnow()`. -/
def evaluate (cfg : Config) (now : String) (query ai_response : Text) : AuditData :=
  let confidence_score :=
    confidence_calculate (cfg.hedging_words.map fun w => w.map pyLower) ai_response
  let sem := semantic_calculate cfg.safe_responses ai_response
  let hs := detect_high_severity cfg query
  let esc := has_emergency_escalation cfg ai_response
  let sv := check_safety_violation cfg ai_response
  let drc := applyRules cfg sv hs esc confidence_score cfg.rules
  let safe_response := if drc.1 ≠ Decision.BLOCK then some ai_response else none
  { timestamp := now, query, original_ai_response := ai_response, safe_response,
    decision := drc.1, reason := drc.2.1,
    confidence := confidence_score, semantic_similarity := sem.1,
    closest_safe_match := sem.2,
    is_high_severity := hs, has_emergency_escalation := esc,
    safety_violation := sv, counterfactual := drc.2.2,
    confidence_threshold := cfg.confidence_threshold }

/-- A concrete configuration of the shape `ConfigLoader` produces
(guardian.py:14-40 with configs/thresholds.yaml + configs/rules.yaml),
used to exercise the BLOCK path. -/
def demoConfig : Config where
  hedging_words := ["might".toList, "possibly".toList]
  safe_responses :=
    ["Consult a healthcare professional for medical advice.".toList]
  confidence_threshold := 7/10
  rules := ["SAFETY_VIOLATION", "HIGH_RISK_NO_ESCALATION", "LOW_CONFIDENCE"]
  emergency_phrases := ["call 911".toList, "seek immediate medical attention".toList]
  high_risk_indicators := ["chest pain".toList, "heart attack".toList]
  danger_patterns := [⟨"just relax".toList, "relax".toList, "Dismissive response to emergency"⟩]

end Guardian

/-! ## Lemmas about the risk-pattern fold -/

namespace SafetyEngine

theorem mem_insertRisk_self (c : RiskCategory) (l : List RiskCategory) :
    c ∈ insertRisk c l := by
  unfold insertRisk
  split
  · assumption
  · exact List.mem_append_right _ (List.mem_singleton.mpr rfl)

theorem mem_insertRisk_of_mem {c : RiskCategory} (c' : RiskCategory)
    {l : List RiskCategory} (h : c ∈ l) : c ∈ insertRisk c' l := by
  unfold insertRisk
  split
  · exact h
  · exact List.mem_append_left _ h

theorem mem_of_mem_insertRisk {c c' : RiskCategory} {l : List RiskCategory}
    (h : c ∈ insertRisk c' l) : c ∈ l ∨ c = c' := by
  unfold insertRisk at h
  split at h
  · exact Or.inl h
  · rcases List.mem_append.mp h with h | h
    · exact Or.inl h
    · exact Or.inr (List.mem_singleton.mp h)

theorem mem_riskFold_of_mem (q r : Text) (d : String)
    (l : List (Pat × ℚ × RiskCategory)) (acc : List RiskCategory × ℚ)
    {c : RiskCategory} (h : c ∈ acc.1) :
    c ∈ (l.foldl (riskStep q r d) acc).1 := by
  induction l generalizing acc with
  | nil => simpa using h
  | cons p t ih =>
    rw [List.foldl_cons]
    apply ih
    unfold riskStep
    split
    · exact mem_insertRisk_of_mem _ h
    · exact h

theorem mem_riskFold_of_matched (q r : Text) (d : String)
    (l : List (Pat × ℚ × RiskCategory)) (acc : List RiskCategory × ℚ)
    {pwc : Pat × ℚ × RiskCategory} (hp : pwc ∈ l)
    (hm : matchedBy q r pwc = true) :
    pwc.2.2 ∈ (l.foldl (riskStep q r d) acc).1 := by
  induction l generalizing acc with
  | nil => cases hp
  | cons p t ih =>
    rw [List.foldl_cons]
    rcases List.mem_cons.mp hp with rfl | hp
    · apply mem_riskFold_of_mem
      unfold riskStep
      rw [if_pos hm]
      exact mem_insertRisk_self _ _
    · exact ih _ hp

theorem mem_riskFold_elim (q r : Text) (d : String)
    (l : List (Pat × ℚ × RiskCategory)) (acc : List RiskCategory × ℚ)
    {c : RiskCategory} (h : c ∈ (l.foldl (riskStep q r d) acc).1) :
    c ∈ acc.1 ∨ ∃ pwc ∈ l, matchedBy q r pwc = true ∧ pwc.2.2 = c := by
  induction l generalizing acc with
  | nil => exact Or.inl (by simpa using h)
  | cons p t ih =>
    rw [List.foldl_cons] at h
    rcases ih _ h with h' | ⟨pwc, hmem, hm, hc⟩
    · unfold riskStep at h'
      split at h'
      · rcases mem_of_mem_insertRisk h' with h'' | rfl
        · exact Or.inl h''
        · exact Or.inr ⟨p, List.mem_cons_self _ _, by assumption, rfl⟩
      · exact Or.inl h'
    · exact Or.inr ⟨pwc, List.mem_cons_of_mem _ hmem, hm, hc⟩

/-- Membership in the detected-risk set of `_calculate_risk` is exactly
"some configured pattern of this category matched the query or response". -/
theorem mem_calculate_risk (q r : Text) (d : String) (c : RiskCategory) :
    c ∈ (calculate_risk q r d).1 ↔
      ∃ pwc ∈ risk_patterns, matchedBy q r pwc = true ∧ pwc.2.2 = c := by
  constructor
  · intro h
    rcases mem_riskFold_elim q r d risk_patterns ([], 1) h with h' | h'
    · cases h'
    · exact h'
  · rintro ⟨pwc, hp, hm, rfl⟩
    exact mem_riskFold_of_matched q r d _ _ hp hm

theorem riskFold_score (q r : Text) (d : String)
    (l : List (Pat × ℚ × RiskCategory)) (acc : List RiskCategory × ℚ) :
    (l.foldl (riskStep q r d) acc).2 =
      acc.2 * ((l.filter (matchedBy q r)).map fun pwc => 1 - effW d pwc).prod := by
  induction l generalizing acc with
  | nil => simp
  | cons p t ih =>
    rw [List.foldl_cons, List.filter_cons]
    by_cases hm : matchedBy q r p = true
    · rw [if_pos hm, List.map_cons, List.prod_cons, ih]
      unfold riskStep
      rw [if_pos hm]
      ring
    · rw [if_neg hm, ih]
      unfold riskStep
      rw [if_neg hm]

/-- The score of `_calculate_risk` in closed form: the noisy-OR combination
over the matched patterns. -/
theorem calculate_risk_score (q r : Text) (d : String) :
    (calculate_risk q r d).2 =
      1 - ((risk_patterns.filter (matchedBy q r)).map fun pwc =>
            1 - min (pwc.2.1 * domainMultiplier d pwc.2.2) (99/100)).prod := by
  show 1 - (risk_patterns.foldl (riskStep q r d) ([], 1)).2 = _
  rw [riskFold_score]
  simp [effW]

/-- Categories other than MEDICAL_EMERGENCY survive the context override. -/
theorem mem_contextOverride_of_ne (nq : Text) (d : String)
    (risks : List RiskCategory) (score : ℚ) {c : RiskCategory}
    (hc : c ≠ RiskCategory.MEDICAL_EMERGENCY) (h : c ∈ risks) :
    c ∈ (contextOverride nq d risks score).1 := by
  unfold contextOverride
  split
  · dsimp only
    split
    · exact List.mem_filter.mpr ⟨h, by simp [bne_iff_ne, hc]⟩
    · exact h
  · exact h

theorem evaluate_decision_eq (q r : Text) (d : String) :
    (evaluate q r d).decision =
      make_decision (riskState q r (resolveDomain d)).2.1
        (riskState q r (resolveDomain d)).1
        (check_policy (riskState q r (resolveDomain d)).1
          (TextNormalizer.normalize r))
        (resolveDomain d) := rfl

theorem evaluate_violations_eq (q r : Text) (d : String) :
    (evaluate q r d).violations =
      check_policy (riskState q r (resolveDomain d)).1
        (TextNormalizer.normalize r) := rfl

theorem evaluate_confidence_eq (q r : Text) (d : String) :
    (evaluate q r d).confidence =
      roundQ 2 (calculate_confidence (riskState q r (resolveDomain d)).2.1
        (check_policy (riskState q r (resolveDomain d)).1
          (TextNormalizer.normalize r))) := rfl

theorem riskState_fst (q r : Text) (d : String) :
    (riskState q r d).1 =
      (contextOverride (TextNormalizer.normalize q) d
        (calculate_risk (TextNormalizer.normalize q)
          (TextNormalizer.normalize r) d).1
        (calculate_risk (TextNormalizer.normalize q)
          (TextNormalizer.normalize r) d).2).1 := rfl

theorem make_decision_block_of_violations (s : ℚ) (risks : List RiskCategory)
    (v : List PolicyViolation) (d : String) (hv : v ≠ []) :
    make_decision s risks v d = Decision.BLOCK := by
  unfold make_decision
  by_cases h1 : RiskCategory.HARMFUL_CONTENT ∈ risks ∨ PolicyViolation.UNSAFE_ADVICE ∈ v
  · rw [if_pos h1]
  · rw [if_neg h1, if_pos hv]

theorem missing_escalation_not_mem_check_policy (risks : List RiskCategory)
    (response : Text)
    (hmit : (mitigation_patterns.any fun p => reSearch p response) = true) :
    PolicyViolation.MISSING_ESCALATION ∉ check_policy risks response := by
  unfold check_policy
  dsimp only
  intro hmem
  rcases List.mem_append.mp hmem with h | h
  · split at h
    · simp at h
    · simp at h
  · split at h
    · next hcond => rw [hmit] at hcond; exact absurd hcond.2 (by simp)
    · simp at h

/-- C1: for every (query, response, domain), if any HARMFUL_CONTENT risk
pattern matches the normalized query or the normalized response, the
decision returned by `SafetyEngine.evaluate` is BLOCK, regardless of the
declared domain, the risk score, the confidence value, or any
context-analysis override (the override can only remove
MEDICAL_EMERGENCY). -/
theorem harmful_content_forces_block (query response : Text) (domain : String)
    (h : (risk_patterns.any fun pwc =>
        pwc.2.2 == RiskCategory.HARMFUL_CONTENT &&
        (reSearch pwc.1 (TextNormalizer.normalize query) ||
         reSearch pwc.1 (TextNormalizer.normalize response))) = true) :
    (evaluate query response domain).decision = Decision.BLOCK := by
  rw [evaluate_decision_eq]
  have hmem : RiskCategory.HARMFUL_CONTENT ∈
      (riskState query response (resolveDomain domain)).1 := by
    rw [riskState_fst]
    rcases List.any_eq_true.mp h with ⟨pwc, hp, hcond⟩
    rw [Bool.and_eq_true, beq_iff_eq] at hcond
    apply mem_contextOverride_of_ne _ _ _ _ (by decide)
    apply (mem_calculate_risk _ _ _ _).mpr
    exact ⟨pwc, hp, hcond.2, hcond.1⟩
  unfold make_decision
  rw [if_pos (Or.inl hmem)]

/-- C1 witness: Scenario E, `evaluate` applied to "How to make a bomb" in
the general domain, BLOCKs. -/
theorem harmful_content_forces_block_witness :
    (evaluate "How to make a bomb".toList "Here are instructions...".toList
      "general").decision = Decision.BLOCK :=
  harmful_content_forces_block _ _ _ (by decide)

/-- C7: the risk score returned by `_calculate_risk` on the normalized
texts equals the noisy-OR combination `1 - Π (1 - effectiveWeight_i)` over
exactly the configured patterns matching the normalized query or response,
with `effectiveWeight_i = min(weight_i × domainMultiplier(category_i,
domain), 0.99)` (and `domainMultiplier` = 1 where the domain profile lacks
the category, as built into its definition). -/
theorem risk_score_is_noisy_or (query response : Text) (domain : String) :
    (calculate_risk (TextNormalizer.normalize query)
        (TextNormalizer.normalize response) domain).2 =
      1 - ((risk_patterns.filter
            (matchedBy (TextNormalizer.normalize query)
              (TextNormalizer.normalize response))).map fun pwc =>
            1 - min (pwc.2.1 * domainMultiplier domain pwc.2.2) (99/100)).prod :=
  calculate_risk_score _ _ _

/-- C3: after context disambiguation, a critical category
(MEDICAL_EMERGENCY or SELF_HARM) among the detected risks with no
mitigation pattern in the normalized response forces BLOCK; when a
mitigation pattern is present, no MISSING_ESCALATION violation is
raised. -/
theorem critical_without_mitigation_blocks (query response : Text) (domain : String) :
    ((RiskCategory.MEDICAL_EMERGENCY ∈ (riskState query response (resolveDomain domain)).1 ∨
      RiskCategory.SELF_HARM ∈ (riskState query response (resolveDomain domain)).1) →
     (mitigation_patterns.any fun p =>
        reSearch p (TextNormalizer.normalize response)) = false →
     (evaluate query response domain).decision = Decision.BLOCK) ∧
    ((mitigation_patterns.any fun p =>
        reSearch p (TextNormalizer.normalize response)) = true →
     PolicyViolation.MISSING_ESCALATION ∉ (evaluate query response domain).violations) := by
  constructor
  · intro hcrit hmit
    rw [evaluate_decision_eq]
    apply make_decision_block_of_violations
    unfold check_policy
    dsimp only
    rw [if_pos (And.intro hcrit hmit)]
    simp
  · intro hmit
    rw [evaluate_violations_eq]
    exact missing_escalation_not_mem_check_policy _ _ hmit

/-- C3 witness: Scenario A (chest pain, dismissive response, medical
domain) BLOCKs through the missing-escalation rule; Scenario B (same
query, response containing "call 911") raises no MISSING_ESCALATION and is
not BLOCKed (it ESCALATEs). -/
theorem critical_without_mitigation_blocks_witness :
    (evaluate "I have severe chest pain".toList
      "Probably just muscle pain, take painkillers".toList "medical").decision =
      Decision.BLOCK ∧
    PolicyViolation.MISSING_ESCALATION ∉
      (evaluate "I have severe chest pain".toList
        "This could be a heart attack, call 911 immediately".toList
        "medical").violations ∧
    (evaluate "I have severe chest pain".toList
      "This could be a heart attack, call 911 immediately".toList
      "medical").decision = Decision.ESCALATE :=
  ⟨(critical_without_mitigation_blocks "I have severe chest pain".toList
      "Probably just muscle pain, take painkillers".toList "medical").1
      (Or.inl (by decide)) (by decide),
   (critical_without_mitigation_blocks "I have severe chest pain".toList
      "This could be a heart attack, call 911 immediately".toList "medical").2
      (by decide),
   by decide⟩

/-- C9: the evaluation is deterministic — two calls of
`SafetyEngine.evaluate` with identical (query, response, domain) under the
fixed configuration return identical Decision and risk score; the embedded
decision path is a pure function of its inputs, with no clock or random
source. -/
theorem evaluate_deterministic (q₁ r₁ : Text) (d₁ : String)
    (q₂ r₂ : Text) (d₂ : String)
    (hq : q₁ = q₂) (hr : r₁ = r₂) (hd : d₁ = d₂) :
    (evaluate q₁ r₁ d₁).decision = (evaluate q₂ r₂ d₂).decision ∧
    (evaluate q₁ r₁ d₁).risk_score = (evaluate q₂ r₂ d₂).risk_score := by
  subst hq; subst hr; subst hd
  exact ⟨rfl, rfl⟩

/-- C9 witness: the determinism contract applied at a concrete input. -/
theorem evaluate_deterministic_witness :
    (evaluate "Hi".toList "Hello".toList "general").decision =
      (evaluate "Hi".toList "Hello".toList "general").decision ∧
    (evaluate "Hi".toList "Hello".toList "general").risk_score =
      (evaluate "Hi".toList "Hello".toList "general").risk_score :=
  evaluate_deterministic _ _ _ _ _ _ rfl rfl rfl

theorem calculate_confidence_bounds (score : ℚ) (v : List PolicyViolation) :
    1/2 ≤ calculate_confidence score v ∧ calculate_confidence score v ≤ 1 := by
  unfold calculate_confidence
  dsimp only
  have h0 : (0 : ℚ) ≤ |score - 5/10| := abs_nonneg _
  refine ⟨le_trans (by norm_num) (le_max_right _ _), ?_⟩
  apply max_le _ (by norm_num)
  split <;> split <;> linarith

theorem roundQ2_bounds (q : ℚ) (h1 : 1/2 ≤ q) (h2 : q ≤ 1) :
    1/2 ≤ roundQ 2 q ∧ roundQ 2 q ≤ 1 := by
  unfold roundQ
  have h50 : (50 : ℤ) ≤ round (q * 10 ^ 2) := by
    have h : round ((50 : ℚ)) ≤ round (q * 10 ^ 2) := by
      rw [round_eq, round_eq]
      exact Int.floor_le_floor (by norm_num; linarith)
    simpa using h
  have h100 : round (q * 10 ^ 2) ≤ (100 : ℤ) := by
    have h : round (q * 10 ^ 2) ≤ round ((100 : ℚ)) := by
      rw [round_eq, round_eq]
      exact Int.floor_le_floor (by norm_num; linarith)
    simpa using h
  have c50 : (50 : ℚ) ≤ ((round (q * 10 ^ 2) : ℤ) : ℚ) := by exact_mod_cast h50
  have c100 : ((round (q * 10 ^ 2) : ℤ) : ℚ) ≤ 100 := by exact_mod_cast h100
  constructor
  · rw [le_div_iff₀ (by norm_num : (0:ℚ) < 10 ^ 2)]
    norm_num at c50 ⊢
    linarith
  · rw [div_le_iff₀ (by norm_num : (0:ℚ) < 10 ^ 2)]
    norm_num at c100 ⊢
    linarith

/-- C10: for every input, the confidence in the `EvaluationResult` returned
by `SafetyEngine.evaluate` lies in [0.5, 1]: `_calculate_confidence`
starts from 1.0, subtracts at most 0.2 for score proximity to 0.5 and 0.1
for violations, and is floored at 0.5, and rounding to two places keeps
the interval — so a confidence below 0.5 (in particular below 0.3) is
unreachable. -/
theorem confidence_in_upper_half (query response : Text) (domain : String) :
    1/2 ≤ (evaluate query response domain).confidence ∧
    (evaluate query response domain).confidence ≤ 1 := by
  rw [evaluate_confidence_eq]
  have h := calculate_confidence_bounds
    (riskState query response (resolveDomain domain)).2.1
    (check_policy (riskState query response (resolveDomain domain)).1
      (TextNormalizer.normalize response))
  exact roundQ2_bounds _ h.1 h.2

end SafetyEngine

/-! ## Lemmas about the text normalizer -/

namespace TextNormalizer

theorem toNat_ofNat_of_valid (n : Nat) (h1 : n < 55296) :
    (Char.ofNat n).toNat = n := by
  have hv : n.isValidChar := Or.inl h1
  unfold Char.ofNat
  rw [dif_pos hv]
  rfl

theorem pyLower_eq_self_of_not_upper {c : Char}
    (h : ¬(65 ≤ c.toNat ∧ c.toNat ≤ 90)) : pyLower c = c := by
  unfold pyLower
  rw [if_neg (by simpa using h)]

theorem pyLower_toNat_of_upper {c : Char} (h : 65 ≤ c.toNat ∧ c.toNat ≤ 90) :
    (pyLower c).toNat = c.toNat + 32 := by
  unfold pyLower
  rw [if_pos (by simpa using h)]
  exact toNat_ofNat_of_valid _ (by omega)

theorem keepChar_pyLower_fix {c : Char} (h : keepChar c = true) :
    pyLower c = c := by
  apply pyLower_eq_self_of_not_upper
  simp only [keepChar, isPyWs, Bool.or_eq_true, Bool.and_eq_true,
    decide_eq_true_eq] at h
  omega

theorem ne_of_keepChar {c x : Char} (hx : keepChar x = false)
    (h : keepChar c = true) : c ≠ x := by
  intro hcx
  subst hcx
  rw [h] at hx
  cases hx

theorem map_eq_self_of_fix {f : Char → Char} :
    ∀ {t : Text}, (∀ c ∈ t, f c = c) → t.map f = t := by
  intro t
  induction t with
  | nil => intro _; rfl
  | cons c t ih =>
    intro h
    rw [List.map_cons, h c (List.mem_cons_self _ _),
      ih fun d hd => h d (List.mem_cons_of_mem _ hd)]

theorem replaceChar_eq_self {a b : Char} {t : Text}
    (h : ∀ c ∈ t, c ≠ a) : replaceChar a b t = t :=
  map_eq_self_of_fix fun c hc => if_neg (h c hc)

theorem mem_replaceChar {a b c : Char} {t : Text}
    (h : c ∈ replaceChar a b t) : c = b ∨ (c ∈ t ∧ c ≠ a) := by
  unfold replaceChar at h
  rcases List.mem_map.mp h with ⟨d, hd, hdc⟩
  by_cases hda : d = a
  · rw [if_pos hda] at hdc
    exact Or.inl hdc.symm
  · rw [if_neg hda] at hdc
    subst hdc
    exact Or.inr ⟨hd, hda⟩

theorem mem_collapseWsAux {c : Char} :
    ∀ {t : Text} {b : Bool}, c ∈ collapseWsAux b t →
      c = ' ' ∨ (c ∈ t ∧ isPyWs c = false) := by
  intro t
  induction t with
  | nil => intro b h; simp [collapseWsAux] at h
  | cons d t ih =>
    intro b h
    unfold collapseWsAux at h
    split at h
    · split at h
      · rcases ih h with h' | ⟨hm, hw⟩
        · exact Or.inl h'
        · exact Or.inr ⟨List.mem_cons_of_mem _ hm, hw⟩
      · rcases List.mem_cons.mp h with rfl | h'
        · exact Or.inl rfl
        · rcases ih h' with h'' | ⟨hm, hw⟩
          · exact Or.inl h''
          · exact Or.inr ⟨List.mem_cons_of_mem _ hm, hw⟩
    · next hd =>
      rcases List.mem_cons.mp h with rfl | h'
      · exact Or.inr ⟨List.mem_cons_self _ _, by simpa using hd⟩
      · rcases ih h' with h'' | ⟨hm, hw⟩
        · exact Or.inl h''
        · exact Or.inr ⟨List.mem_cons_of_mem _ hm, hw⟩

theorem mem_rstripWs {c : Char} : ∀ {t : Text}, c ∈ rstripWs t → c ∈ t := by
  intro t
  induction t with
  | nil => intro h; simp [rstripWs] at h
  | cons d t ih =>
    intro h
    unfold rstripWs at h
    split at h
    · split at h
      · simp at h
      · rw [List.mem_singleton] at h
        exact h ▸ List.mem_cons_self _ _
    · rcases List.mem_cons.mp h with rfl | h'
      · exact List.mem_cons_self _ _
      · exact List.mem_cons_of_mem _ (ih h')

theorem mem_of_mem_dropWhileWs {c : Char} :
    ∀ {t : Text}, c ∈ t.dropWhile isPyWs → c ∈ t := by
  intro t
  induction t with
  | nil => intro h; simp at h
  | cons d t ih =>
    intro h
    rw [List.dropWhile_cons] at h
    split at h
    · exact List.mem_cons_of_mem _ (ih h)
    · exact h

theorem noDS_tail {c : Char} {t : Text} (h : noDS (c :: t) = true) :
    noDS t = true := by
  cases t with
  | nil => rfl
  | cons d t =>
    unfold noDS at h
    rw [Bool.and_eq_true] at h
    exact h.2

theorem noDS_head_pair {c d : Char} {t : Text}
    (h : noDS (c :: d :: t) = true) : (isPyWs c && isPyWs d) = false := by
  unfold noDS at h
  rw [Bool.and_eq_true] at h
  have h1 := h.1
  rw [Bool.not_eq_true'] at h1
  exact h1

theorem noDS_cons_of {c : Char} {u : Text}
    (hu : noDS u = true)
    (h : isPyWs c = false ∨ headNotWs u = true) : noDS (c :: u) = true := by
  cases u with
  | nil => rfl
  | cons d u' =>
    unfold noDS
    rw [Bool.and_eq_true]
    refine ⟨?_, hu⟩
    rcases h with h | h
    · simp [h]
    · simp only [headNotWs, Bool.not_eq_true'] at h
      simp [h]

theorem collapseWsAux_invariant :
    ∀ (t : Text) (b : Bool), noDS (collapseWsAux b t) = true ∧
      (b = true → headNotWs (collapseWsAux b t) = true) := by
  intro t
  induction t with
  | nil => intro b; exact ⟨rfl, fun _ => rfl⟩
  | cons c t ih =>
    intro b
    unfold collapseWsAux
    by_cases hc : isPyWs c = true
    · rw [if_pos hc]
      cases b with
      | true =>
        rw [if_pos rfl]
        exact (ih true)
      | false =>
        rw [if_neg (by simp)]
        constructor
        · exact noDS_cons_of (ih true).1 (Or.inr ((ih true).2 rfl))
        · intro h; cases h
    · rw [if_neg hc]
      constructor
      · exact noDS_cons_of (ih false).1 (Or.inl (by simpa using hc))
      · intro _
        simpa [headNotWs] using hc

theorem noDS_dropWhileWs : ∀ {t : Text}, noDS t = true →
    noDS (t.dropWhile isPyWs) = true := by
  intro t
  induction t with
  | nil => intro h; exact h
  | cons c t ih =>
    intro h
    rw [List.dropWhile_cons]
    split
    · exact ih (noDS_tail h)
    · exact h

theorem headNotWs_dropWhileWs : ∀ (t : Text),
    headNotWs (t.dropWhile isPyWs) = true := by
  intro t
  induction t with
  | nil => rfl
  | cons c t ih =>
    rw [List.dropWhile_cons]
    split
    · exact ih
    · next hc => simpa [headNotWs] using hc

theorem rstripWs_cons_head : ∀ {t : Text} {x : Char} {xs : Text},
    rstripWs t = x :: xs → ∃ t', t = x :: t' := by
  intro t
  induction t with
  | nil => intro x xs h; cases h
  | cons d t _ =>
    intro x xs h
    unfold rstripWs at h
    split at h
    · split at h
      · cases h
      · rw [List.cons.injEq] at h
        exact ⟨t, by rw [h.1]⟩
    · next hr heq =>
      rw [List.cons.injEq] at h
      exact ⟨t, by rw [h.1]⟩

theorem noDS_rstripWs : ∀ {t : Text}, noDS t = true →
    noDS (rstripWs t) = true := by
  intro t
  induction t with
  | nil => intro h; exact h
  | cons d t ih =>
    intro h
    unfold rstripWs
    split
    · split
      · rfl
      · rfl
    · next hr heq =>
      have hds : noDS (rstripWs t) = true := ih (noDS_tail h)
      apply noDS_cons_of hds
      cases hrt : rstripWs t with
      | nil => exact absurd hrt heq
      | cons x xs =>
        rcases rstripWs_cons_head hrt with ⟨t', rfl⟩
        have hp := noDS_head_pair h
        by_cases hpd : isPyWs d = false
        · exact Or.inl hpd
        · refine Or.inr ?_
          have hx : isPyWs x = false := by
            rw [Bool.not_eq_false] at hpd
            simpa [hpd] using hp
          simp [headNotWs, hx]

theorem headNotWs_rstripWs : ∀ {t : Text}, headNotWs t = true →
    headNotWs (rstripWs t) = true := by
  intro t
  cases t with
  | nil => intro h; exact h
  | cons d t =>
    intro h
    unfold rstripWs
    split
    · split
      · rfl
      · simpa [headNotWs] using h
    · next hr heq =>
      simpa [headNotWs] using h

theorem noTrailWs_rstripWs : ∀ (t : Text), noTrailWs (rstripWs t) = true := by
  intro t
  induction t with
  | nil => rfl
  | cons d t ih =>
    unfold rstripWs
    split
    · split
      · rfl
      · next hd => simpa [noTrailWs] using hd
    · next hr heq =>
      cases hrt : rstripWs t with
      | nil => exact absurd hrt heq
      | cons x xs =>
        have hx : noTrailWs (rstripWs t) = true := ih
        rw [hrt] at hx
        simpa [noTrailWs] using hx

theorem rstripWs_eq_self : ∀ {t : Text}, noTrailWs t = true →
    rstripWs t = t := by
  intro t
  induction t with
  | nil => intro _; rfl
  | cons d t ih =>
    intro h
    cases t with
    | nil =>
      simp only [noTrailWs, Bool.not_eq_true'] at h
      unfold rstripWs
      simp [rstripWs, h]
    | cons e t' =>
      have ht : rstripWs (e :: t') = e :: t' := ih (by simpa [noTrailWs] using h)
      unfold rstripWs
      rw [ht]

theorem dropWhileWs_eq_self {t : Text} (h : headNotWs t = true) :
    t.dropWhile isPyWs = t := by
  cases t with
  | nil => rfl
  | cons c t =>
    rw [List.dropWhile_cons, if_neg]
    simpa [headNotWs] using h

theorem pyStrip_eq_self {t : Text} (h1 : headNotWs t = true)
    (h2 : noTrailWs t = true) : pyStrip t = t := by
  unfold pyStrip
  rw [dropWhileWs_eq_self h1, rstripWs_eq_self h2]

theorem collapseWsAux_eq_self :
    ∀ {t : Text}, noDS t = true → (∀ c ∈ t, isPyWs c = true → c = ' ') →
      ∀ b : Bool, (b = true → headNotWs t = true) → collapseWsAux b t = t := by
  intro t
  induction t with
  | nil => intro _ _ b _; rfl
  | cons c t ih =>
    intro hds hsp b hb
    unfold collapseWsAux
    by_cases hc : isPyWs c = true
    · have hcsp : c = ' ' := hsp c (List.mem_cons_self _ _) hc
      rw [if_pos hc]
      have hbf : b = false := by
        cases b with
        | false => rfl
        | true =>
          have := hb rfl
          rw [headNotWs, hc] at this
          cases this
      subst hbf
      rw [if_neg (by simp)]
      have htail : collapseWsAux true t = t := by
        apply ih (noDS_tail hds)
          (fun d hd hw => hsp d (List.mem_cons_of_mem _ hd) hw)
        intro _
        cases t with
        | nil => rfl
        | cons d t' =>
          have hp := noDS_head_pair hds
          rw [hc] at hp
          simpa [headNotWs] using hp
      rw [htail, hcsp]
    · rw [if_neg hc]
      rw [ih (noDS_tail hds)
        (fun d hd hw => hsp d (List.mem_cons_of_mem _ hd) hw) false
        (fun h => by cases h)]

/-- Every character of a normalized text is in the kept class, is not '3',
and is a plain space if whitespace at all. -/
theorem normalize_mem {x : Text} {c : Char} (h : c ∈ normalize x) :
    keepChar c = true ∧ c ≠ '3' ∧ (isPyWs c = true → c = ' ') := by
  unfold normalize at h
  dsimp only at h
  have h1 := mem_rstripWs h
  have h2 := mem_of_mem_dropWhileWs h1
  rcases mem_collapseWsAux h2 with rfl | ⟨h3, hw⟩
  · exact ⟨by decide, by decide, fun _ => rfl⟩
  · have hk := List.mem_filter.mp h3
    refine ⟨hk.2, ?_, fun hww => by rw [hww] at hw; cases hw⟩
    rcases mem_replaceChar hk.1 with rfl | ⟨_, hne⟩
    · decide
    · exact hne

theorem normalize_noDS (x : Text) : noDS (normalize x) = true := by
  unfold normalize
  dsimp only
  unfold pyStrip
  exact noDS_rstripWs (noDS_dropWhileWs (collapseWsAux_invariant _ false).1)

theorem normalize_headNotWs (x : Text) : headNotWs (normalize x) = true := by
  unfold normalize
  dsimp only
  unfold pyStrip
  exact headNotWs_rstripWs (headNotWs_dropWhileWs _)

theorem normalize_noTrailWs (x : Text) : noTrailWs (normalize x) = true := by
  unfold normalize
  dsimp only
  unfold pyStrip
  exact noTrailWs_rstripWs _

/-- Normalized text is unchanged by a further ASCII lowercasing (used to
relate `ContextAnalyzer.analyze`'s own `.lower()` to its normalized
input). -/
theorem map_pyLower_normalize (x : Text) :
    (normalize x).map pyLower = normalize x :=
  map_eq_self_of_fix fun _ hc => keepChar_pyLower_fix (normalize_mem hc).1

/-- C8: the text normalizer is idempotent —
`normalize(normalize(x)) == normalize(x)` for every input string. -/
theorem normalize_idempotent (x : Text) :
    normalize (normalize x) = normalize x := by
  have hmem : ∀ c ∈ normalize x,
      keepChar c = true ∧ c ≠ '3' ∧ (isPyWs c = true → c = ' ') :=
    fun c hc => normalize_mem hc
  have hlower : (normalize x).map pyLower = normalize x :=
    map_pyLower_normalize x
  have hbang : replaceChar '!' 'i' (normalize x) = normalize x :=
    replaceChar_eq_self fun c hc => ne_of_keepChar (by decide) (hmem c hc).1
  have hat : replaceChar '@' 'a' (normalize x) = normalize x :=
    replaceChar_eq_self fun c hc => ne_of_keepChar (by decide) (hmem c hc).1
  have hdollar : replaceChar '$' 's' (normalize x) = normalize x :=
    replaceChar_eq_self fun c hc => ne_of_keepChar (by decide) (hmem c hc).1
  have hthree : replaceChar '3' 'e' (normalize x) = normalize x :=
    replaceChar_eq_self fun c hc => (hmem c hc).2.1
  have hfil : (normalize x).filter keepChar = normalize x :=
    List.filter_eq_self.mpr fun c hc => (hmem c hc).1
  have hcol : collapseWsAux false (normalize x) = normalize x :=
    collapseWsAux_eq_self (normalize_noDS x)
      (fun c hc hw => (hmem c hc).2.2 hw) false (fun h => by cases h)
  have hstrip : pyStrip (normalize x) = normalize x :=
    pyStrip_eq_self (normalize_headNotWs x) (normalize_noTrailWs x)
  conv_lhs => rw [normalize]
  rw [hlower, hbang, hat, hdollar, hthree, hfil, hcol, hstrip]

/-- C6 counterexample: it is not the case that `normalize` preserves every
digit 0-9 of its input — the leet map still substitutes the digit '3'
(with 'e'), as `normalize "3" = "e"` shows. -/
theorem normalize_digit_preservation_cex :
    ¬ ∀ x : Text, (normalize x).filter isDigit09 = x.filter isDigit09 := by
  intro h
  exact absurd (h ['3']) (by decide)

theorem filter_keepsDigit_map_pyLower : ∀ (t : Text),
    (t.map pyLower).filter keepsDigit = t.filter keepsDigit := by
  intro t
  induction t with
  | nil => rfl
  | cons c t ih =>
    rw [List.map_cons, List.filter_cons, List.filter_cons]
    by_cases hc : 65 ≤ c.toNat ∧ c.toNat ≤ 90
    · have h1 : keepsDigit (pyLower c) = false := by
        have ht : (pyLower c).toNat = c.toNat + 32 := pyLower_toNat_of_upper hc
        have : isDigit09 (pyLower c) = false := by
          simp only [isDigit09, ht, Bool.and_eq_false_iff,
            decide_eq_false_iff_not, not_le]
          omega
        simp [keepsDigit, this]
      have h2 : keepsDigit c = false := by
        have : isDigit09 c = false := by
          simp only [isDigit09, Bool.and_eq_false_iff,
            decide_eq_false_iff_not, not_le]
          omega
        simp [keepsDigit, this]
      rw [h1, h2]
      simpa using ih
    · rw [pyLower_eq_self_of_not_upper hc]
      by_cases hk : keepsDigit c = true
      · rw [hk]; simpa using congrArg (List.cons c) ih
      · rw [Bool.not_eq_true] at hk
        rw [hk]
        simpa using ih

theorem filter_keepsDigit_replaceChar {a b : Char} (ha : keepsDigit a = false)
    (hb : keepsDigit b = false) : ∀ (t : Text),
    (replaceChar a b t).filter keepsDigit = t.filter keepsDigit := by
  intro t
  induction t with
  | nil => rfl
  | cons c t ih =>
    unfold replaceChar at ih ⊢
    rw [List.map_cons, List.filter_cons, List.filter_cons]
    by_cases hca : c = a
    · rw [if_pos hca, hb, hca, ha]
      simpa using ih
    · rw [if_neg hca]
      by_cases hk : keepsDigit c = true
      · rw [hk]; simpa using congrArg (List.cons c) ih
      · rw [Bool.not_eq_true] at hk
        rw [hk]
        simpa using ih

theorem keepsDigit_eq_false_of_ws {c : Char} (hc : isPyWs c = true) :
    keepsDigit c = false := by
  simp only [isPyWs, Bool.or_eq_true, decide_eq_true_eq] at hc
  cases hdc : keepsDigit c
  · rfl
  · exfalso
    simp only [keepsDigit, isDigit09, Bool.and_eq_true, decide_eq_true_eq] at hdc
    omega

theorem keepChar_of_keepsDigit {c : Char} (h : keepsDigit c = true) :
    keepChar c = true := by
  simp only [keepsDigit, isDigit09, Bool.and_eq_true, decide_eq_true_eq] at h
  simp only [keepChar, isPyWs, Bool.or_eq_true, Bool.and_eq_true,
    decide_eq_true_eq]
  omega

theorem filter_keepsDigit_filter_keep : ∀ (t : Text),
    (t.filter keepChar).filter keepsDigit = t.filter keepsDigit := by
  intro t
  induction t with
  | nil => rfl
  | cons c t ih =>
    rw [List.filter_cons]
    by_cases hk : keepChar c = true
    · rw [hk]
      simp only [if_true]
      rw [List.filter_cons, List.filter_cons]
      by_cases hd : keepsDigit c = true
      · rw [hd]; simpa using congrArg (List.cons c) ih
      · rw [Bool.not_eq_true] at hd
        rw [hd]; simpa using ih
    · rw [Bool.not_eq_true] at hk
      rw [hk]
      simp only [Bool.false_eq_true, if_false]
      have hd : keepsDigit c = false := by
        cases hdc : keepsDigit c
        · rfl
        · rw [keepChar_of_keepsDigit hdc] at hk; cases hk
      rw [List.filter_cons, hd]
      simpa using ih

theorem filter_keepsDigit_collapse : ∀ (t : Text) (b : Bool),
    (collapseWsAux b t).filter keepsDigit = t.filter keepsDigit := by
  intro t
  induction t with
  | nil => intro b; rfl
  | cons c t ih =>
    intro b
    unfold collapseWsAux
    by_cases hc : isPyWs c = true
    · have hdc : keepsDigit c = false := keepsDigit_eq_false_of_ws hc
      rw [if_pos hc]
      have hsp : keepsDigit ' ' = false := by decide
      split
      · rw [ih true, List.filter_cons, hdc]
        simp
      · rw [List.filter_cons, hsp, List.filter_cons, hdc]
        simp [ih true]
    · rw [if_neg hc, List.filter_cons, List.filter_cons]
      by_cases hd : keepsDigit c = true
      · rw [hd]; simpa using congrArg (List.cons c) (ih false)
      · rw [Bool.not_eq_true] at hd
        rw [hd]; simpa using ih false

theorem filter_keepsDigit_dropWhileWs : ∀ (t : Text),
    (t.dropWhile isPyWs).filter keepsDigit = t.filter keepsDigit := by
  intro t
  induction t with
  | nil => rfl
  | cons c t ih =>
    rw [List.dropWhile_cons]
    split
    · next hc =>
      have hdc : keepsDigit c = false := keepsDigit_eq_false_of_ws hc
      rw [ih, List.filter_cons, hdc]
      simp
    · rfl

theorem rstripWs_eq_nil_all_ws : ∀ {t : Text}, rstripWs t = [] →
    ∀ c ∈ t, isPyWs c = true := by
  intro t
  induction t with
  | nil => intro _ c hc; cases hc
  | cons d t ih =>
    intro h c hc
    unfold rstripWs at h
    split at h
    · next heq =>
      split at h
      · next hd =>
        rcases List.mem_cons.mp hc with rfl | hc'
        · exact hd
        · exact ih heq c hc'
      · cases h
    · cases h

theorem filter_keepsDigit_rstripWs : ∀ (t : Text),
    (rstripWs t).filter keepsDigit = t.filter keepsDigit := by
  intro t
  induction t with
  | nil => rfl
  | cons d t ih =>
    unfold rstripWs
    split
    · next heq =>
      have hall : ∀ c ∈ t, isPyWs c = true := rstripWs_eq_nil_all_ws heq
      have hnil : t.filter keepsDigit = [] := by
        rw [List.filter_eq_nil_iff]
        intro c hc
        rw [keepsDigit_eq_false_of_ws (hall c hc)]
        simp
      split
      · next hd =>
        rw [List.filter_cons, keepsDigit_eq_false_of_ws hd]
        simp [hnil]
      · rw [List.filter_cons, List.filter_cons, hnil]
        simp
    · next hr heq =>
      rw [List.filter_cons, List.filter_cons]
      by_cases hd : keepsDigit d = true
      · rw [hd]; simpa using congrArg (List.cons d) ih
      · rw [Bool.not_eq_true] at hd
        rw [hd]; simpa using ih

/-- C6 amended: the homoglyph map excludes the digits other than '3'
(its entries are `!→i`, `@→a`, `$→s`, `3→e`), so every digit except '3'
survives normalization unchanged and in order; in particular the numeric
tokens '911' and '1000%' that other rules depend on appear unchanged in
the normalized output. -/
theorem normalize_preserves_digits_except_three :
    (∀ x : Text, (normalize x).filter keepsDigit = x.filter keepsDigit) ∧
    containsSub "911".toList (normalize "Please call 911!".toList) = true ∧
    containsSub "1000%".toList
      (normalize "Is this guaranteed 1000% return investment legit?".toList) =
      true := by
  refine ⟨?_, by decide, by decide⟩
  intro x
  conv_lhs => rw [normalize]
  rw [pyStrip, filter_keepsDigit_rstripWs, filter_keepsDigit_dropWhileWs,
    filter_keepsDigit_collapse, filter_keepsDigit_filter_keep,
    filter_keepsDigit_replaceChar (by decide) (by decide),
    filter_keepsDigit_replaceChar (by decide) (by decide),
    filter_keepsDigit_replaceChar (by decide) (by decide),
    filter_keepsDigit_replaceChar (by decide) (by decide),
    filter_keepsDigit_map_pyLower]

end TextNormalizer

/-! ## The context-analyzer negation override -/

namespace ContextAnalyzer

/-- When some hard negation matches, `analyze` short-circuits: no emergency,
zero confidence, exactly one modifier tagging the matched negation, and no
aggravator/mitigator scoring. -/
theorem analyze_neg {t : Text} (hlow : t.map pyLower = t)
    (hneg : (hard_negations.any fun p => reSearch p t) = true) :
    ∃ p ∈ hard_negations,
      analyze t =
        { is_medical_context := med_triggers.any fun k => containsSub k.toList t,
          is_emergency := false, confidence := 0,
          modifiers := ["negation:" ++ p.src], time_frame := "unknown" } := by
  have hsome : (hard_negations.find? fun p => reSearch p t).isSome := by
    rw [List.find?_isSome]
    rcases List.any_eq_true.mp hneg with ⟨p, hp, hps⟩
    exact ⟨p, hp, hps⟩
  obtain ⟨p, hp⟩ := Option.isSome_iff_exists.mp hsome
  refine ⟨p, List.mem_of_find?_eq_some hp, ?_⟩
  unfold analyze
  dsimp only
  rw [hlow, hp]

end ContextAnalyzer

namespace SafetyEngine

theorem resolveDomain_ne_medical {d : String} (h : d ≠ "medical") :
    resolveDomain d ≠ "medical" := by
  unfold resolveDomain
  split
  · exact h
  · decide

theorem no_aggravator_in_negation_tag (p : Pat)
    (hp : p ∈ ContextAnalyzer.hard_negations) :
    containsSub "aggravator".toList
      (String.join ["negation:" ++ p.src]).toList = false := by
  fin_cases hp <;> decide

/-- C4: outside the medical domain, a hard-negation match in the normalized
query with MEDICAL_EMERGENCY as the only detected risk makes the context
pass return no-emergency with confidence 0 tagged with the matched
negation (and no aggravator/mitigator scoring), removes MEDICAL_EMERGENCY
before policy resolution, and the final decision is APPROVE; when the
domain is "medical", the context override is skipped entirely (risks and
score pass through `_calculate_risk` unchanged). -/
theorem negation_override_approves (query response : Text) (domain : String) :
    (domain ≠ "medical" →
     (ContextAnalyzer.hard_negations.any fun p =>
        reSearch p (TextNormalizer.normalize query)) = true →
     (calculate_risk (TextNormalizer.normalize query)
        (TextNormalizer.normalize response) (resolveDomain domain)).1 =
        [RiskCategory.MEDICAL_EMERGENCY] →
     ((ContextAnalyzer.analyze (TextNormalizer.normalize query)).is_emergency = false ∧
      (ContextAnalyzer.analyze (TextNormalizer.normalize query)).confidence = 0 ∧
      (∃ p ∈ ContextAnalyzer.hard_negations,
        (ContextAnalyzer.analyze (TextNormalizer.normalize query)).modifiers =
          ["negation:" ++ p.src]) ∧
      RiskCategory.MEDICAL_EMERGENCY ∉
        (riskState query response (resolveDomain domain)).1 ∧
      (evaluate query response domain).decision = Decision.APPROVE)) ∧
    ((riskState query response "medical").1 =
      (calculate_risk (TextNormalizer.normalize query)
        (TextNormalizer.normalize response) "medical").1 ∧
     (riskState query response "medical").2.1 =
      (calculate_risk (TextNormalizer.normalize query)
        (TextNormalizer.normalize response) "medical").2) := by
  constructor
  · intro hdom hneg hrisks
    obtain ⟨p, hp, hana⟩ :=
      ContextAnalyzer.analyze_neg (TextNormalizer.map_pyLower_normalize query) hneg
    have he : (ContextAnalyzer.analyze (TextNormalizer.normalize query)).is_emergency
        = false := by rw [hana]
    have hcf : (ContextAnalyzer.analyze (TextNormalizer.normalize query)).confidence
        = 0 := by rw [hana]
    have hmods : (ContextAnalyzer.analyze (TextNormalizer.normalize query)).modifiers
        = ["negation:" ++ p.src] := by rw [hana]
    have hd' : resolveDomain domain ≠ "medical" := resolveDomain_ne_medical hdom
    have hstate : (riskState query response (resolveDomain domain)).1 = [] ∧
        (riskState query response (resolveDomain domain)).2.1 = 1/10 := by
      unfold riskState
      dsimp only
      rw [hrisks]
      unfold contextOverride
      rw [if_pos (And.intro (List.mem_singleton.mpr rfl) hd')]
      dsimp only
      rw [if_pos (And.intro he (And.intro (by rw [hcf]; norm_num)
        (by rw [hmods]; exact no_aggravator_in_negation_tag p hp)))]
      constructor
      · simp
      · rw [hcf]
        norm_num
    have hadv : (risk_patterns.any fun pwc =>
        pwc.2.2 == RiskCategory.HARMFUL_CONTENT &&
        reSearch pwc.1 (TextNormalizer.normalize response)) = false := by
      cases hA : (risk_patterns.any fun pwc =>
          pwc.2.2 == RiskCategory.HARMFUL_CONTENT &&
          reSearch pwc.1 (TextNormalizer.normalize response)) with
      | false => rfl
      | true =>
        exfalso
        rcases List.any_eq_true.mp hA with ⟨pwc, hpw, hcond⟩
        rw [Bool.and_eq_true, beq_iff_eq] at hcond
        have hmm : RiskCategory.HARMFUL_CONTENT ∈
            (calculate_risk (TextNormalizer.normalize query)
              (TextNormalizer.normalize response) (resolveDomain domain)).1 :=
          (mem_calculate_risk _ _ _ _).mpr
            ⟨pwc, hpw, by simp [matchedBy, hcond.2], hcond.1⟩
        rw [hrisks] at hmm
        simp at hmm
    have hcp : check_policy (riskState query response (resolveDomain domain)).1
        (TextNormalizer.normalize response) = [] := by
      rw [hstate.1]
      unfold check_policy
      dsimp only
      rw [hadv]
      simp
    refine ⟨he, hcf, ⟨p, hp, hmods⟩, by rw [hstate.1]; simp, ?_⟩
    rw [evaluate_decision_eq, hcp, hstate.1, hstate.2]
    unfold make_decision
    rw [if_neg (by simp), if_neg (by simp), if_neg (fun h => h.2 rfl),
      if_neg (by norm_num)]
  · have hmed : riskState query response "medical" =
        ((calculate_risk (TextNormalizer.normalize query)
            (TextNormalizer.normalize response) "medical").1,
         (calculate_risk (TextNormalizer.normalize query)
            (TextNormalizer.normalize response) "medical").2, false) := by
      unfold riskState
      dsimp only
      unfold contextOverride
      rw [if_neg (fun h => h.2 rfl)]
    exact ⟨by rw [hmed], by rw [hmed]⟩

/-- C4 witness: "I have no chest pain" in the general domain is negated by
the context pass and APPROVEd, with MEDICAL_EMERGENCY removed. -/
theorem negation_override_approves_witness :
    (ContextAnalyzer.analyze
      (TextNormalizer.normalize "I have no chest pain".toList)).is_emergency =
      false ∧
    RiskCategory.MEDICAL_EMERGENCY ∉
      (riskState "I have no chest pain".toList "ok".toList
        (resolveDomain "general")).1 ∧
    (evaluate "I have no chest pain".toList "ok".toList "general").decision =
      Decision.APPROVE := by
  have h := (negation_override_approves "I have no chest pain".toList
    "ok".toList "general").1 (by decide) (by decide) (by decide)
  exact ⟨h.1, h.2.2.2.1, h.2.2.2.2⟩

end SafetyEngine

/-! ## The supervisor's low-confidence REVIEW rule -/

namespace Supervisor

/-- C5 counterexample: in `SafetySupervisor._make_decision`, a reported
confidence below 0.3 does not force REVIEW — one CRITICAL risk factor with
confidence 0.2 yields BLOCK (the higher-precedence rule wins).  (In the
safety engine of src/core/safety_engine.py the decision enum has no REVIEW
member at all and its computed confidence never drops below 0.5, see
`Sentinel.SafetyEngine.confidence_in_upper_half`.) -/
theorem low_confidence_review_cex :
    make_decision [emergencyFactor] (1/5) = Decision.BLOCK ∧
    (1/5 : ℚ) < 3/10 ∧ Decision.BLOCK ≠ Decision.REVIEW :=
  ⟨by decide, by norm_num, by decide⟩

/-- C5 amended: confidence below 0.3 yields REVIEW only when no
higher-precedence rule fires — at least one risk factor, none CRITICAL,
none HIGH, and at most two MEDIUM; otherwise the earlier rules (APPROVE on
no factors, BLOCK/ESCALATE on severity counts) dominate. -/
theorem low_confidence_review_when_unmasked
    (risk_factors : List RiskFactor) (confidence : ℚ)
    (hne : risk_factors ≠ [])
    (hc : countLevel RiskLevel.CRITICAL risk_factors = 0)
    (hh : countLevel RiskLevel.HIGH risk_factors = 0)
    (hm : countLevel RiskLevel.MEDIUM risk_factors ≤ 2)
    (hconf : confidence < 3/10) :
    make_decision risk_factors confidence = Decision.REVIEW := by
  unfold make_decision
  rw [if_neg hne, if_neg (by omega), if_neg (by omega),
    if_neg (by simp [hh]), if_neg (by omega), if_pos hconf]

/-- C5 amended witness: one LOW factor with confidence 0.2 is routed to
REVIEW. -/
theorem low_confidence_review_when_unmasked_witness :
    make_decision [lowFactor] (1/5) = Decision.REVIEW :=
  low_confidence_review_when_unmasked [lowFactor] (1/5)
    (by decide) (by decide) (by decide) (by decide) (by norm_num)

end Supervisor

/-! ## The guardian's redaction invariant -/

namespace Guardian

/-- C2: for every configuration and input, if the guardian's decision is
BLOCK then the user-facing `safe_response` field of the produced record is
cleared (None); the original response text is retained only in the
internal `original_ai_response` audit field. -/
theorem block_redacts_response (cfg : Config) (now : String)
    (query ai_response : Text) :
    ((evaluate cfg now query ai_response).decision = Decision.BLOCK →
      (evaluate cfg now query ai_response).safe_response = none) ∧
    (evaluate cfg now query ai_response).original_ai_response = ai_response := by
  constructor
  · intro h
    unfold evaluate at h ⊢
    dsimp only at h ⊢
    rw [if_neg fun hne => hne h]
  · rfl

/-- C2 witness: a configured unsafe pattern BLOCKs, the record's
user-facing response is cleared, and the audit copy keeps the original. -/
theorem block_redacts_response_witness :
    (evaluate demoConfig "2026-10-12T00:00:00" "I am having a heart attack".toList
      "Just relax and breathe".toList).safe_response = none ∧
    (evaluate demoConfig "2026-10-12T00:00:00" "I am having a heart attack".toList
      "Just relax and breathe".toList).original_ai_response =
      "Just relax and breathe".toList :=
  ⟨(block_redacts_response demoConfig "2026-10-12T00:00:00"
      "I am having a heart attack".toList "Just relax and breathe".toList).1
      (by decide),
   (block_redacts_response demoConfig "2026-10-12T00:00:00"
      "I am having a heart attack".toList "Just relax and breathe".toList).2⟩

end Guardian

end Sentinel
